import Mathlib

/-!
Verification of the PlatformIO post-build hook `src/to_bin.py` of
chriskinal/AiO_New_Dawn against its specification.

The script registers a post-action on the linked ELF target that invokes
the configured object-copy tool to produce a raw `.bin` image with the
`.eeprom` section removed:

  Import("env")
  env.AddPostAction(
      "$BUILD_DIR/${PROGNAME}.elf",
      env.VerboseAction(" ".join([
          "$OBJCOPY", "-O", "binary", "-R", ".eeprom",
          "$BUILD_DIR/${PROGNAME}.elf", "$BUILD_DIR/${PROGNAME}.bin"
      ]), "Building $BUILD_DIR/${PROGNAME}.bin")
  )

The script itself is pure glue: its behaviour is the literal data it hands
to the build system (the target template, the command string, the log
message), plus the semantics of the externals it delegates to (Python's
`str.join`, the shell's whitespace splitting, the object-copy tool, and
the build pipeline's post-action hook).  The literal data is embedded
directly from the source; each external is modelled from the spec, with a
doc comment saying so.
-/

namespace ToBin

/-- Model of Python's `str.join` (the `" ".join([...])` call on line 4 of
`src/to_bin.py`): concatenates the strings of the list with the separator
between consecutive elements. -/
def pyJoin (sep : String) : List String → String
  | [] => ""
  | [x] => x
  | x :: xs => x ++ sep ++ pyJoin sep xs

/-- The seven command tokens of `src/to_bin.py` lines 5-6, verbatim, with
the build-system variable references still unexpanded. -/
def objcopyCmdTokens : List String :=
  ["$OBJCOPY", "-O", "binary", "-R", ".eeprom",
   "$BUILD_DIR/${PROGNAME}.elf", "$BUILD_DIR/${PROGNAME}.bin"]

/-- The command string handed to `env.VerboseAction` (line 4 of
`src/to_bin.py`): the seven tokens joined by single spaces. -/
def objcopyCmd : String := pyJoin " " objcopyCmdTokens

/-- The target template of the `env.AddPostAction` call (line 3 of
`src/to_bin.py`). -/
def postActionTarget : String := "$BUILD_DIR/${PROGNAME}.elf"

/-- The output-path template appearing in the log message and as the last
command token (lines 6-7 of `src/to_bin.py`). -/
def binTargetTemplate : String := "$BUILD_DIR/${PROGNAME}.bin"

/-- An `env.VerboseAction` value: a shell command string plus the
human-readable message printed when the action runs. -/
structure VerboseAction where
  command : String
  message : String
  deriving DecidableEq

/-- An `env.AddPostAction` registration: the build target the action is
attached to, and the action itself. -/
structure PostAction where
  target : String
  action : VerboseAction
  deriving DecidableEq

/-- The single registration performed by `src/to_bin.py` lines 2-8. -/
def to_bin : PostAction :=
  { target := postActionTarget
    action :=
      { command := objcopyCmd
        message := "Building $BUILD_DIR/${PROGNAME}.bin" } }

/-- The build-system variables the script's templates reference:
`$OBJCOPY`, `$BUILD_DIR` and `${PROGNAME}`, provided by the host build
pipeline. -/
structure Env where
  OBJCOPY : String
  BUILD_DIR : String
  PROGNAME : String

/-- Expansion of the template `"$BUILD_DIR/${PROGNAME}.elf"` (lines 3
and 6 of `src/to_bin.py`) under an environment. -/
def elfPath (e : Env) : String := e.BUILD_DIR ++ "/" ++ e.PROGNAME ++ ".elf"

/-- Expansion of the template `"$BUILD_DIR/${PROGNAME}.bin"` (line 6 of
`src/to_bin.py`) under an environment. -/
def binPath (e : Env) : String := e.BUILD_DIR ++ "/" ++ e.PROGNAME ++ ".bin"

/-- The command tokens of lines 5-6 after the build system substitutes
the variables: `$OBJCOPY` becomes `e.OBJCOPY`, and the two path templates
become `elfPath e` and `binPath e`. -/
def argvTokens (e : Env) : List String :=
  [e.OBJCOPY, "-O", "binary", "-R", ".eeprom", elfPath e, binPath e]

/-- The expanded command line the build system executes: textual variable
substitution commutes with concatenation, so expanding `objcopyCmd` is
joining the expanded tokens. -/
def expandedCommand (e : Env) : String := pyJoin " " (argvTokens e)

/-- Modelled from the spec: the shell splits an unquoted command line into
words at space characters (`splitW` over the underlying character list). -/
def splitW : List Char → List (List Char)
  | [] => [[]]
  | c :: cs =>
    if c = ' ' then [] :: splitW cs
    else (splitW cs).modifyHead (fun w => c :: w)

/-- Modelled from the spec: the argument vector the shell derives from a
command line — split at spaces, empty words dropped, no quoting. -/
def shellSplit (s : String) : List String :=
  ((splitW s.data).filter (fun w => !w.isEmpty)).map (fun w => String.mk w)

/-- Modelled from the spec (glossary, §3): a memory section of a linked
executable image — a name, a loadability flag, and its bytes. -/
structure ElfSection where
  name : String
  loadable : Bool
  bytes : List Nat
  deriving DecidableEq

/-- Modelled from the spec (§3): a linked executable image as a list of
sections. -/
structure ElfFile where
  sections : List ElfSection
  deriving DecidableEq

/-- A file on disk: either a linked executable image or raw bytes. -/
inductive FileContent
  | elf (f : ElfFile)
  | raw (bytes : List Nat)
  deriving DecidableEq

/-- A filesystem: a partial map from paths to file contents. -/
def FSm : Type := String → Option FileContent

/-- Modelled from the spec (§8, scenario): the raw-binary image the
object-copy tool emits for `-O binary -R <removed>` — the concatenated
bytes of the loadable sections, excluding the removed section. -/
def objcopyBin (removed : String) (f : ElfFile) : List Nat :=
  ((f.sections.filter (fun s => s.loadable && s.name != removed)).map
    (fun s => s.bytes)).flatten

/-- Modelled from the spec (§4.1, §7): running the object-copy tool
`<tool> -O binary -R <removed> <inPath> <outPath>` on a filesystem.  If
the input path holds an executable image, the tool writes the raw-binary
image at the output path and everything else is untouched; otherwise
(input missing or not an executable) the tool exits non-zero, the build
is marked failed (`none`) and the filesystem is left unchanged. -/
def runObjcopy (removed inPath outPath : String) (fs : FSm) : Option FSm :=
  match fs inPath with
  | some (FileContent.elf f) =>
      some (fun p =>
        if p = outPath then some (FileContent.raw (objcopyBin removed f))
        else fs p)
  | _ => none

/-- Modelled from the spec (§6): the OS runs an argument vector.  An
argument vector of the object-copy shape `[tool, -O, binary, -R, sec,
inPath, outPath]` runs the tool; any other shape is a malformed
invocation and fails (`none`, filesystem unchanged). -/
def runArgv (argv : List String) (fs : FSm) : Option FSm :=
  match argv with
  | [_tool, "-O", "binary", "-R", sec, inPath, outPath] =>
      runObjcopy sec inPath outPath fs
  | _ => none

/-- Running the action registered by `src/to_bin.py` under environment
`e`: the build system expands the command string's variables and hands
the line to the shell, which splits it into an argument vector and runs
it. -/
def executeAction (e : Env) (fs : FSm) : Option FSm :=
  runArgv (shellSplit (expandedCommand e)) fs

/-- Directly invoking the object-copy tool with the spec's arguments
`-O binary -R .eeprom <input.elf> <output.bin>` on the same paths —
the spec-side description the action is compared against. -/
def directInvocation (e : Env) (fs : FSm) : Option FSm :=
  runObjcopy ".eeprom" (elfPath e) (binPath e) fs

/-- The input-path argument of an object-copy argument vector, when the
vector has the seven-token shape. -/
def argvInput (argv : List String) : Option String :=
  match argv with
  | [_tool, _f1, _f2, _f3, _sec, inPath, _outPath] => some inPath
  | _ => none

/-- An event in the run of a single `env.VerboseAction`. -/
inductive ActionEvent
  | log (msg : String)
  | execCmd (cmd : String)
  deriving DecidableEq

/-- Modelled from the spec (§4.1 side effect): running an
`env.VerboseAction` prints its human-readable message, then executes its
command. -/
def verboseActionTrace (a : VerboseAction) : List ActionEvent :=
  [ActionEvent.log a.message, ActionEvent.execCmd a.command]

/-- An event in the host pipeline's build of the registered target. -/
inductive BuildEvent
  | produced (target : String)
  | ranAction (cmd : String)
  deriving DecidableEq

/-- Modelled from the spec (§4.1 trigger): on a successful link of the
registered target, the pipeline first produces the target artifact, then
fires the registered post-action exactly once; the action never runs
outside this hook. -/
def successfulLinkTrace (r : PostAction) : List BuildEvent :=
  [BuildEvent.produced r.target, BuildEvent.ranAction r.action.command]

/-- A well-formed instantiation of the build-system variables: the tool
name is nonempty and no variable's value contains a space (the situation
the unquoted join of line 4 is written for). -/
def saneEnv (e : Env) : Prop :=
  e.OBJCOPY ≠ "" ∧ ' ' ∉ e.OBJCOPY.data ∧ ' ' ∉ e.BUILD_DIR.data ∧
    ' ' ∉ e.PROGNAME.data

instance (e : Env) : Decidable (saneEnv e) := by
  unfold saneEnv; infer_instance

/-- A sample environment for concrete evaluations. -/
def sampleEnv : Env :=
  { OBJCOPY := "objcopy", BUILD_DIR := ".pio/build/teensy41",
    PROGNAME := "firmware" }

/-- A sample executable image with a text, a data and an eeprom section
(the spec's scenario). -/
def sampleElf : ElfFile :=
  { sections :=
      [{ name := ".text", loadable := true, bytes := [1, 2] },
       { name := ".data", loadable := true, bytes := [3] },
       { name := ".eeprom", loadable := true, bytes := [9, 9] }] }

/-- A sample filesystem holding the sample executable at the expanded
input path. -/
def sampleFs : FSm :=
  fun p => if p = elfPath sampleEnv then some (FileContent.elf sampleElf)
           else none

/-- The empty filesystem. -/
def emptyFs : FSm := fun _ => none

/-- An environment whose build-directory value contains a space. -/
def spacedEnv : Env :=
  { OBJCOPY := "objcopy", BUILD_DIR := "build dir", PROGNAME := "firmware" }

/-! Helper lemmas. -/

theorem mk_data (s : String) : String.mk s.data = s := by cases s; rfl

theorem data_ne_nil (s : String) (h : s ≠ "") : s.data ≠ [] := by
  intro hd
  exact h (String.ext hd)

theorem ne_empty_of_data_ne_nil (s : String) (h : s.data ≠ []) : s ≠ "" := by
  intro hs
  exact h (hs ▸ rfl)

theorem splitW_ne_nil (l : List Char) : splitW l ≠ [] := by
  induction l with
  | nil => simp [splitW]
  | cons c cs ih =>
    simp only [splitW]
    split
    · simp
    · cases h : splitW cs with
      | nil => exact absurd h ih
      | cons w ws => simp

theorem splitW_of_no_space (l : List Char) (h : ' ' ∉ l) : splitW l = [l] := by
  induction l with
  | nil => rfl
  | cons c cs ih =>
    have hc : c ≠ ' ' := fun hc => h (hc ▸ List.mem_cons_self _ _)
    have hcs : ' ' ∉ cs := fun hm => h (List.mem_cons_of_mem _ hm)
    simp only [splitW, if_neg hc, ih hcs, List.modifyHead]

theorem splitW_append_space (l₁ l₂ : List Char) (h : ' ' ∉ l₁) :
    splitW (l₁ ++ ' ' :: l₂) = l₁ :: splitW l₂ := by
  induction l₁ with
  | nil => simp [splitW]
  | cons c cs ih =>
    have hc : c ≠ ' ' := fun hc => h (hc ▸ List.mem_cons_self _ _)
    have hcs : ' ' ∉ cs := fun hm => h (List.mem_cons_of_mem _ hm)
    show splitW (c :: (cs ++ ' ' :: l₂)) = (c :: cs) :: splitW l₂
    rw [splitW, if_neg hc, ih hcs]
    rfl

theorem splitW_no_space (l : List Char) : ∀ w ∈ splitW l, ' ' ∉ w := by
  induction l with
  | nil =>
    intro w hw
    simp only [splitW, List.mem_singleton] at hw
    simp [hw]
  | cons c cs ih =>
    intro w hw
    simp only [splitW] at hw
    by_cases hc : c = ' '
    · rw [if_pos hc] at hw
      rcases List.mem_cons.mp hw with h1 | h2
      · simp [h1]
      · exact ih w h2
    · rw [if_neg hc] at hw
      rcases h : splitW cs with _ | ⟨v, vs⟩
      · exact absurd h (splitW_ne_nil cs)
      · rw [h, List.modifyHead] at hw
        rcases List.mem_cons.mp hw with h1 | h2
        · subst h1
          intro hmem
          rcases List.mem_cons.mp hmem with h3 | h4
          · exact hc h3.symm
          · exact ih v (h ▸ List.mem_cons_self _ _) h4
        · exact ih w (h ▸ List.mem_cons_of_mem _ h2)

theorem shellSplit_no_space (s : String) : ∀ w ∈ shellSplit s, ' ' ∉ w.data := by
  intro w hw
  unfold shellSplit at hw
  rcases List.mem_map.mp hw with ⟨l, hl, hml⟩
  have hl' : l ∈ splitW s.data := List.mem_of_mem_filter hl
  subst hml
  exact splitW_no_space s.data l hl'

theorem filter_cons_of_ne_nil (a : List Char) (rest : List (List Char))
    (ha : a ≠ []) :
    (a :: rest).filter (fun w => !w.isEmpty) =
      a :: rest.filter (fun w => !w.isEmpty) := by
  have hb : (!a.isEmpty) = true := by
    cases a with
    | nil => exact absurd rfl ha
    | cons c cs => rfl
  simp [List.filter_cons, hb]

theorem shellSplit_pyJoin (toks : List String) (hne : toks ≠ [])
    (h : ∀ t ∈ toks, t ≠ "" ∧ ' ' ∉ t.data) :
    shellSplit (pyJoin " " toks) = toks := by
  induction toks with
  | nil => exact absurd rfl hne
  | cons x xs ih =>
    have hx := h x (List.mem_cons_self _ _)
    have hxd : x.data ≠ [] := data_ne_nil x hx.1
    cases xs with
    | nil =>
      show shellSplit x = [x]
      unfold shellSplit
      rw [splitW_of_no_space x.data hx.2, filter_cons_of_ne_nil _ _ hxd]
      simp [mk_data]
    | cons y ys =>
      have hrest : ∀ t ∈ y :: ys, t ≠ "" ∧ ' ' ∉ t.data :=
        fun t ht => h t (List.mem_cons_of_mem _ ht)
      have ihr := ih (by simp) hrest
      show shellSplit (x ++ " " ++ pyJoin " " (y :: ys)) = x :: y :: ys
      unfold shellSplit at ihr ⊢
      rw [String.data_append, String.data_append, List.append_assoc]
      have hsp : (" " : String).data = [' '] := rfl
      rw [hsp, List.singleton_append, splitW_append_space _ _ hx.2,
        filter_cons_of_ne_nil _ _ hxd, List.map_cons, mk_data, ihr]

theorem elfPath_ne_empty (e : Env) : elfPath e ≠ "" := by
  apply ne_empty_of_data_ne_nil
  intro hd
  unfold elfPath at hd
  simp only [String.data_append, List.append_eq_nil] at hd
  exact absurd hd.2 (by decide)

theorem binPath_ne_empty (e : Env) : binPath e ≠ "" := by
  apply ne_empty_of_data_ne_nil
  intro hd
  unfold binPath at hd
  simp only [String.data_append, List.append_eq_nil] at hd
  exact absurd hd.2 (by decide)

theorem elfPath_no_space (e : Env) (h : saneEnv e) : ' ' ∉ (elfPath e).data := by
  intro hm
  unfold elfPath at hm
  simp only [String.data_append, List.mem_append] at hm
  rcases hm with ((h1 | h2) | h3) | h4
  · exact h.2.2.1 h1
  · exact absurd h2 (by decide)
  · exact h.2.2.2 h3
  · exact absurd h4 (by decide)

theorem binPath_no_space (e : Env) (h : saneEnv e) : ' ' ∉ (binPath e).data := by
  intro hm
  unfold binPath at hm
  simp only [String.data_append, List.mem_append] at hm
  rcases hm with ((h1 | h2) | h3) | h4
  · exact h.2.2.1 h1
  · exact absurd h2 (by decide)
  · exact h.2.2.2 h3
  · exact absurd h4 (by decide)

theorem argvTokens_ne_nil (e : Env) : argvTokens e ≠ [] := by
  simp [argvTokens]

theorem argvTokens_ok (e : Env) (h : saneEnv e) :
    ∀ t ∈ argvTokens e, t ≠ "" ∧ ' ' ∉ t.data := by
  intro t ht
  simp only [argvTokens, List.mem_cons, List.not_mem_nil, or_false] at ht
  rcases ht with h1 | h1 | h1 | h1 | h1 | h1 | h1 <;> subst h1
  · exact ⟨h.1, h.2.1⟩
  · exact ⟨by decide, by decide⟩
  · exact ⟨by decide, by decide⟩
  · exact ⟨by decide, by decide⟩
  · exact ⟨by decide, by decide⟩
  · exact ⟨elfPath_ne_empty e, elfPath_no_space e h⟩
  · exact ⟨binPath_ne_empty e, binPath_no_space e h⟩

theorem shellSplit_expandedCommand (e : Env) (h : saneEnv e) :
    shellSplit (expandedCommand e) = argvTokens e :=
  shellSplit_pyJoin _ (argvTokens_ne_nil e) (argvTokens_ok e h)

theorem executeAction_eq_direct (e : Env) (h : saneEnv e) (fs : FSm) :
    executeAction e fs = directInvocation e fs := by
  unfold executeAction directInvocation
  rw [shellSplit_expandedCommand e h]
  rfl

theorem elfPath_ne_binPath (e : Env) : elfPath e ≠ binPath e := by
  intro hEq
  have hd : (elfPath e).data = (binPath e).data := congrArg String.data hEq
  unfold elfPath binPath at hd
  simp only [String.data_append] at hd
  have h2 : (".elf" : String).data = (".bin" : String).data :=
    List.append_cancel_left hd
  exact absurd h2 (by decide)

/-! Claim theorems. -/

/-- Claim C1 (amended): for every build directory and program name whose
values contain no space character (and a nonempty tool name), the
post-build action invokes the configured object-copy tool with exactly the
argument list `-O binary -R .eeprom <build_dir>/<program_name>.elf
<build_dir>/<program_name>.bin`, in that order, with no additional
arguments.  The unamended universal claim fails for values containing
spaces; see the counterexample. -/
theorem objcopy_invoked_with_exact_args (e : Env) (h : saneEnv e) :
    shellSplit (expandedCommand e) =
      [e.OBJCOPY, "-O", "binary", "-R", ".eeprom", elfPath e, binPath e] :=
  shellSplit_expandedCommand e h

theorem objcopy_invoked_with_exact_args_witness :
    shellSplit (expandedCommand sampleEnv) =
      [sampleEnv.OBJCOPY, "-O", "binary", "-R", ".eeprom",
       elfPath sampleEnv, binPath sampleEnv] :=
  objcopy_invoked_with_exact_args sampleEnv (by decide)

/-- Claim C1, counterexample to the unamended claim: for a build
directory containing a space, the argument vector handed to the tool is
not the six exact arguments — the unquoted join splits the paths. -/
theorem objcopy_exact_args_fails_on_spaced_dir :
    shellSplit (expandedCommand spacedEnv) ≠
      [spacedEnv.OBJCOPY, "-O", "binary", "-R", ".eeprom",
       elfPath spacedEnv, binPath spacedEnv] := by decide

/-- Claim C2: running the action is a pure pass-through — the filesystem
outcome of executing the registered command equals that of directly
invoking the object-copy tool with the same arguments on the same input,
byte for byte; the action adds no transformation of its own. -/
theorem action_is_pure_pass_through (e : Env) (h : saneEnv e) (fs : FSm) :
    executeAction e fs = directInvocation e fs :=
  executeAction_eq_direct e h fs

theorem action_is_pure_pass_through_witness :
    executeAction sampleEnv sampleFs = directInvocation sampleEnv sampleFs :=
  action_is_pure_pass_through sampleEnv (by decide) sampleFs

/-- Claim C4: if the input executable path does not exist when the action
runs, the action fails — the model returns `none`, meaning the build is
marked failed and no filesystem write happens, so no output file is
produced and any previously existing output file is untouched. -/
theorem missing_input_fails (e : Env) (fs : FSm) (h : saneEnv e)
    (hin : fs (elfPath e) = none) : executeAction e fs = none := by
  rw [executeAction_eq_direct e h fs]
  unfold directInvocation runObjcopy
  rw [hin]

theorem missing_input_fails_witness :
    executeAction sampleEnv emptyFs = none :=
  missing_input_fails sampleEnv emptyFs (by decide) rfl

/-- Claim C3: the produced output contains no bytes belonging to the
input's EEPROM section — the image of any executable equals the image of
that executable with every `.eeprom` section deleted, and on the spec's
scenario (a `.text`, `.data` and `.eeprom` section) the output is exactly
the concatenated `.text` and `.data` bytes. -/
theorem output_excludes_eeprom_section (f : ElfFile) :
    objcopyBin ".eeprom" f =
      objcopyBin ".eeprom"
        ⟨f.sections.filter (fun s => s.name != ".eeprom")⟩ ∧
    objcopyBin ".eeprom" sampleElf = [1, 2, 3] := by
  constructor
  · unfold objcopyBin
    have hff : (f.sections.filter (fun s => s.name != ".eeprom")).filter
          (fun s => s.loadable && s.name != ".eeprom") =
        f.sections.filter
          (fun s => (s.loadable && s.name != ".eeprom") &&
            s.name != ".eeprom") :=
      List.filter_filter _ _
    rw [show (ElfFile.mk (f.sections.filter
          (fun s => s.name != ".eeprom"))).sections =
        f.sections.filter (fun s => s.name != ".eeprom") from rfl, hff]
    have hcongr : f.sections.filter
        (fun s => s.loadable && s.name != ".eeprom") =
        f.sections.filter
          (fun s => (s.loadable && s.name != ".eeprom") &&
            s.name != ".eeprom") := by
      apply List.filter_congr
      intro s _
      cases hl : s.loadable <;> cases hn : s.name == ".eeprom" <;>
        simp [bne, hl, hn]
    rw [← hcongr]
  · decide

theorem output_excludes_eeprom_section_witness :
    objcopyBin ".eeprom" sampleElf =
      objcopyBin ".eeprom"
        ⟨sampleElf.sections.filter (fun s => s.name != ".eeprom")⟩ ∧
    objcopyBin ".eeprom" sampleElf = [1, 2, 3] :=
  output_excludes_eeprom_section sampleElf

theorem runObjcopy_idem (inp out : String) (hne : inp ≠ out) (fs : FSm) :
    (runObjcopy ".eeprom" inp out fs).bind (runObjcopy ".eeprom" inp out) =
      runObjcopy ".eeprom" inp out fs := by
  cases hin : fs inp with
  | none =>
    unfold runObjcopy
    rw [hin]
    rfl
  | some fc =>
    cases fc with
    | raw bs =>
      unfold runObjcopy
      rw [hin]
      rfl
    | elf f =>
      have h1 : runObjcopy ".eeprom" inp out fs =
          some (fun p =>
            if p = out then
              some (FileContent.raw (objcopyBin ".eeprom" f))
            else fs p) := by
        unfold runObjcopy
        rw [hin]
      rw [h1, Option.some_bind]
      have h2 : (fun p =>
          if p = out then some (FileContent.raw (objcopyBin ".eeprom" f))
          else fs p) inp = some (FileContent.elf f) := by
        simp only [if_neg hne, hin]
      unfold runObjcopy
      rw [h2]
      refine congrArg some (funext fun p => ?_)
      by_cases hp : p = out
      · subst hp
        simp
      · simp [hp]

/-- Claim C5: running the action twice with the input unchanged between
the runs is idempotent — a second run on the filesystem a successful run
produced overwrites the output with byte-identical content and changes
nothing, and a failed run stays failed. -/
theorem action_idempotent (e : Env) (fs : FSm) (h : saneEnv e) :
    (executeAction e fs).bind (executeAction e) = executeAction e fs := by
  have hfun : executeAction e = directInvocation e := by
    funext fs'
    exact executeAction_eq_direct e h fs'
  rw [hfun]
  exact runObjcopy_idem (elfPath e) (binPath e) (elfPath_ne_binPath e) fs

theorem action_idempotent_witness :
    (executeAction sampleEnv sampleFs).bind (executeAction sampleEnv) =
      executeAction sampleEnv sampleFs :=
  action_idempotent sampleEnv sampleFs (by decide)

/-- Claim C6: the callback is registered as a post-action of the specific
build target `$BUILD_DIR/${PROGNAME}.elf`; in the modelled pipeline a
successful link of that target first produces the target and then fires
the registered command exactly once, so the action never runs before the
executable exists and never runs standalone. -/
theorem registered_on_elf_target_fires_once_after_link :
    to_bin.target = "$BUILD_DIR/${PROGNAME}.elf" ∧
    successfulLinkTrace to_bin =
      [BuildEvent.produced "$BUILD_DIR/${PROGNAME}.elf",
       BuildEvent.ranAction objcopyCmd] ∧
    (successfulLinkTrace to_bin).count (BuildEvent.ranAction objcopyCmd) = 1 ∧
    (successfulLinkTrace to_bin).indexOf
        (BuildEvent.produced "$BUILD_DIR/${PROGNAME}.elf") <
      (successfulLinkTrace to_bin).indexOf (BuildEvent.ranAction objcopyCmd) := by
  refine ⟨rfl, rfl, ?_, ?_⟩ <;> decide

/-- Claim C7: frame — a run touches exactly the two artifact paths: a
successful run leaves every path other than `<build_dir>/<program_name>.bin`
unchanged, and two filesystems that agree at `<build_dir>/<program_name>.elf`
give runs that agree in success and in the content written at the output
path, so nothing else is read. -/
theorem action_reads_elf_writes_bin_only (e : Env) (fs fs₁ fs₂ : FSm)
    (p : String) (h : saneEnv e) (hp : p ≠ binPath e)
    (hread : fs₁ (elfPath e) = fs₂ (elfPath e)) :
    (executeAction e fs).map (fun g => g p) =
      (executeAction e fs).map (fun _ => fs p) ∧
    (executeAction e fs₁).map (fun g => g (binPath e)) =
      (executeAction e fs₂).map (fun g => g (binPath e)) ∧
    (executeAction e fs₁).isSome = (executeAction e fs₂).isSome := by
  rw [executeAction_eq_direct e h fs, executeAction_eq_direct e h fs₁,
    executeAction_eq_direct e h fs₂]
  unfold directInvocation
  refine ⟨?_, ?_, ?_⟩
  · cases hin : fs (elfPath e) with
    | none =>
      unfold runObjcopy
      rw [hin]
      rfl
    | some fc =>
      cases fc with
      | raw bs =>
        unfold runObjcopy
        rw [hin]
        rfl
      | elf f =>
        unfold runObjcopy
        rw [hin]
        simp [hp]
  · cases hin : fs₂ (elfPath e) with
    | none =>
      unfold runObjcopy
      rw [hread, hin]
    | some fc =>
      cases fc with
      | raw bs =>
        unfold runObjcopy
        rw [hread, hin]
      | elf f =>
        unfold runObjcopy
        rw [hread, hin]
        simp
  · cases hin : fs₂ (elfPath e) with
    | none =>
      unfold runObjcopy
      rw [hread, hin]
    | some fc =>
      cases fc with
      | raw bs =>
        unfold runObjcopy
        rw [hread, hin]
      | elf f =>
        unfold runObjcopy
        rw [hread, hin]
        rfl

theorem action_reads_elf_writes_bin_only_witness :
    (executeAction sampleEnv sampleFs).map
        (fun g => g (elfPath sampleEnv)) =
      (executeAction sampleEnv sampleFs).map
        (fun _ => sampleFs (elfPath sampleEnv)) ∧
    (executeAction sampleEnv sampleFs).map
        (fun g => g (binPath sampleEnv)) =
      (executeAction sampleEnv sampleFs).map
        (fun g => g (binPath sampleEnv)) ∧
    (executeAction sampleEnv sampleFs).isSome =
      (executeAction sampleEnv sampleFs).isSome :=
  action_reads_elf_writes_bin_only sampleEnv sampleFs sampleFs sampleFs
    (elfPath sampleEnv) (by decide) (by decide) rfl

/-- Claim C8: a run of the action emits the human-readable log line
`Building $BUILD_DIR/${PROGNAME}.bin` — naming the output `.bin` path —
strictly before the object-copy command is executed. -/
theorem log_line_names_bin_before_command :
    verboseActionTrace to_bin.action =
      [ActionEvent.log ("Building " ++ binTargetTemplate),
       ActionEvent.execCmd objcopyCmd] ∧
    to_bin.action.message = "Building " ++ binTargetTemplate := by
  constructor <;> decide

/-- Claim C9: the command line is formed by joining exactly seven tokens
with single spaces and no quoting, so an environment whose expanded input
path contains a space does not hand that path to the external tool as one
argument — the path is not a single element of the split argument
vector. -/
theorem seven_token_join_splits_spaced_paths (e : Env)
    (hsp : ' ' ∈ (elfPath e).data) :
    (objcopyCmd = pyJoin " " objcopyCmdTokens ∧
      objcopyCmdTokens.length = 7) ∧
    elfPath e ∉ shellSplit (expandedCommand e) :=
  ⟨⟨rfl, rfl⟩, fun hmem => shellSplit_no_space _ _ hmem hsp⟩

theorem seven_token_join_splits_spaced_paths_witness :
    (objcopyCmd = pyJoin " " objcopyCmdTokens ∧
      objcopyCmdTokens.length = 7) ∧
    elfPath spacedEnv ∉ shellSplit (expandedCommand spacedEnv) :=
  seven_token_join_splits_spaced_paths spacedEnv (by decide)

/-- Claim C10: the registered build target and the input argument of the
object-copy command are the identical template string
`$BUILD_DIR/${PROGNAME}.elf`, so under every environment the path the
action reads is exactly the expansion of the target whose production
triggered it. -/
theorem target_template_equals_input_template (e : Env) (h : saneEnv e) :
    to_bin.target = objcopyCmdTokens[5]! ∧
    argvInput (shellSplit (expandedCommand e)) = some (elfPath e) := by
  refine ⟨rfl, ?_⟩
  rw [shellSplit_expandedCommand e h]
  rfl

theorem target_template_equals_input_template_witness :
    to_bin.target = objcopyCmdTokens[5]! ∧
    argvInput (shellSplit (expandedCommand sampleEnv)) =
      some (elfPath sampleEnv) :=
  target_template_equals_input_template sampleEnv (by decide)

